import Mathlib

/-!
Verification of the cluster activation/dispatch core of protoactor-go.

Shallow embedding of:
- `cluster/config.go` : `Configure` and its option functions, `Kind`,
  `NewKind`, the cluster receiver middleware (`withClusterReceiveMiddleware`,
  `handleStarted`, `handleStopped`) and `ActivatedKind` with its atomic
  `Inc`/`Dev` counter;
- `protobuf/protoc-gen-go-grain/generate.go` : `generateService`, the
  per-method dispatch-descriptor emission;
- the reentrant-vs-blocking dispatch semantics of generated grain calls
  (the generated call bodies are not part of the sources at hand, so that
  part is modelled from the specification's description).

Go `time.Duration` is an `int64` count of nanoseconds; durations are
embedded as `Int` nanoseconds.  The `int32` live-instance counter is
embedded as an `Int` kept in two's-complement `int32` range by an explicit
wrap function.  Side effects of the middleware (forwarding to the wrapped
pipeline, event-stream publishes, cache removals) are embedded as an
explicit trace: each handler returns the list of effects it performs, in
the order the Go code performs them.
-/

namespace ProtoCluster

/-! ## Configuration (`cluster/config.go`) -/

/-- One nanosecond, the unit of Go `time.Duration`. -/
def nanosecond : Int := 1

/-- Go `time.Millisecond` in nanoseconds. -/
def millisecond : Int := 1000000

/-- Go `time.Second` in nanoseconds. -/
def second : Int := 1000000000

/-- `actor.Props` is opaque to this core; an abstract reference suffices. -/
abbrev Props := Nat

/-- A member strategy builder is opaque to this core. -/
abbrev StrategyBuilder := Nat

/-- `cluster.Kind`: the kinds of actors a cluster can manage.
`Kind.Kind` is the registered name, `Props` the behavior factory,
`StrategyBuilder` the optional placement-strategy builder
(`nil` in Go is `none` here). -/
structure Kind where
  Kind : String
  Props : Props
  StrategyBuilder : Option StrategyBuilder
deriving DecidableEq

/-- The `Config` fields observed by the verified claims.  The remaining Go
fields (`Name`, `ClusterProvider`, `IdentityLookup`, `RemoteConfig`,
`RequestTimeoutTime`, `RequestsLogThrottlePeriod`,
`MaxNumberOfEventsInRequestLogThrottledPeriod`, `ClusterContextProducer`,
`MemberStrategyBuilder`) are references to external collaborators or
defaults declared outside these sources and are not inspected by any
claim; the embedding projects `Config` onto the inspected fields.
`Kinds` is the Go `map[string]*Kind`, embedded as a lookup function. -/
structure Config where
  Name : String
  Kinds : String → Option Kind
  TimeoutTime : Int
  GossipInterval : Int
  GossipRequestTimeout : Int
  GossipFanOut : Int
  GossipMaxSend : Int

/-- `cluster.ConfigOption`: a mutation of the config, embedded as an
endofunction. -/
def ConfigOption := Config → Config

/-- `cluster.Configure`: builds the config with its literal defaults, then
applies each option in order. -/
def Configure (clusterName : String) (options : List ConfigOption) : Config :=
  let config : Config :=
    { Name := clusterName
      Kinds := fun _ => none
      TimeoutTime := 5 * second
      GossipInterval := 300 * millisecond
      GossipRequestTimeout := 500 * millisecond
      GossipFanOut := 3
      GossipMaxSend := 50 }
  options.foldl (fun c option => option c) config

/-- `cluster.WithKinds`: inserts every given kind into the `Kinds` map under
its name (`c.Kinds[kind.Kind] = kind`), a plain Go map assignment: a later
assignment under the same key silently overwrites an earlier one. -/
def WithKinds (kinds : List Kind) : ConfigOption :=
  fun c =>
    { c with
      Kinds := kinds.foldl (fun m kind => fun s => if s = kind.Kind then some kind else m s) c.Kinds }

/-! ## Claims C9 and C8 -/

/-- Claim C9: constructing a cluster configuration with zero options yields
exactly the documented defaults: cluster-wide timeout of 5 seconds, gossip
interval of 300 milliseconds, gossip request timeout of 500 milliseconds,
gossip fan-out of 3, and gossip max-send of 50. -/
theorem configure_zero_options_defaults (clusterName : String) :
    (Configure clusterName []).TimeoutTime = 5 * second ∧
    (Configure clusterName []).GossipInterval = 300 * millisecond ∧
    (Configure clusterName []).GossipRequestTimeout = 500 * millisecond ∧
    (Configure clusterName []).GossipFanOut = 3 ∧
    (Configure clusterName []).GossipMaxSend = 50 :=
  ⟨rfl, rfl, rfl, rfl, rfl⟩

/-- Claim C8: registering two kinds under the same name leaves exactly the
second kind's entry active (last assignment to the map key wins, silently,
with no error path in the code), and registering the same kind twice leaves
the map exactly as registering it once does. -/
theorem withKinds_last_wins (k1 k2 : Kind) (c : Config) (h : k1.Kind = k2.Kind) :
    (WithKinds [k1, k2] c).Kinds k2.Kind = some k2 ∧
    (∀ s, s ≠ k2.Kind → (WithKinds [k1, k2] c).Kinds s = c.Kinds s) ∧
    ∀ k : Kind, (WithKinds [k, k] c).Kinds = (WithKinds [k] c).Kinds := by
  refine ⟨?_, ?_, ?_⟩
  · simp [WithKinds, List.foldl]
  · intro s hs
    simp only [WithKinds, List.foldl]
    rw [if_neg hs, if_neg (h ▸ hs)]
  · intro k
    funext s
    simp only [WithKinds, List.foldl]
    by_cases hk : s = k.Kind <;> simp [hk]

/-- Witness for C8 at a concrete input: two kinds named `"hello"` with
distinct behavior factories; the lookup after registration returns the
second. -/
theorem withKinds_last_wins_witness :
    (WithKinds [⟨"hello", 1, none⟩, ⟨"hello", 2, none⟩] (Configure "c" [])).Kinds "hello"
      = some ⟨"hello", 2, none⟩ :=
  (withKinds_last_wins ⟨"hello", 1, none⟩ ⟨"hello", 2, none⟩ (Configure "c" []) rfl).1

/-! ## Cluster receiver middleware (`withClusterReceiveMiddleware`) -/

/-- `cluster.ClusterIdentity`: the (identity string, kind name) pair naming a
grain. -/
structure ClusterIdentity where
  Identity : String
  Kind : String
deriving DecidableEq

/-- A process id (`*actor.PID`), opaque to this core. -/
abbrev PID := Nat

/-- A reference to a `*cluster.Cluster` instance, opaque to this core. -/
abbrev ClusterRef := Nat

/-- The messages the middleware can receive: the two intercepted lifecycle
signals `*actor.Started` and `*actor.Stopped`, the `*cluster.ClusterInit`
message the middleware itself constructs, and every other message
(business messages, RPC requests, ...), represented by an opaque tag. -/
inductive Message where
  | started
  | stopped
  | clusterInit (identity : Option ClusterIdentity) (cluster : ClusterRef)
  | other (tag : Nat)
deriving DecidableEq

/-- `actor.MessageEnvelope`: header, message and optional sender. -/
structure MessageEnvelope where
  Header : Option (List (String × String))
  Message : Message
  Sender : Option PID
deriving DecidableEq

/-- `actor.WrapEnvelope` applied to a plain (non-envelope) message: wraps it
with nil header and nil sender. -/
def WrapEnvelope (message : Message) : MessageEnvelope :=
  { Header := none, Message := message, Sender := none }

/-- The `actor.ReceiverContext` facts the middleware reads: `c.Self()`, the
cluster singleton of `c.ActorSystem()`, and the `ClusterIdentity` stored in
the context's extension store (set once at construction by
`WithClusterIdentity` via `ctx.Set`; `none` when never set). -/
structure ReceiverContext where
  selfPid : PID
  cluster : ClusterRef
  clusterIdentity : Option ClusterIdentity
deriving DecidableEq

/-- Modelled from the spec: the cluster singleton lookup — given the hosting
actor system, `GetCluster` returns the one live cluster instance associated
with it (the context carries that reference here). -/
def GetCluster (c : ReceiverContext) : ClusterRef := c.cluster

/-- Modelled from the spec: `GetClusterIdentity` resolves the identity
previously attached to this activation's context, set once at construction
via the identity-injection wrapper `WithClusterIdentity`; absent when the
activation was never initialized as a grain. -/
def GetClusterIdentity (c : ReceiverContext) : Option ClusterIdentity :=
  c.clusterIdentity

/-- The observable side effects a middleware handler performs, in order:
invoking the wrapped `next` receiver with an envelope, publishing an
`ActivationTerminating{Pid, ClusterIdentity}` event on the event stream,
and the value-qualified `PidCache.RemoveByValue(identity, kind, pid)`. -/
inductive Effect where
  | next (envelope : MessageEnvelope)
  | publishActivationTerminating (pid : PID) (identity : ClusterIdentity)
  | removeByValue (identity : String) (kind : String) (pid : PID)
deriving DecidableEq

/-- Whether an effect forwards a `ClusterInit` message to the wrapped
pipeline. -/
def Effect.isClusterInitNext : Effect → Bool
  | Effect.next envelope =>
      match envelope.Message with
      | Message.clusterInit _ _ => true
      | _ => false
  | _ => false

/-- `handleStopped`: if an identity is bound, publish `ActivationTerminating`
then remove the pid-cache entry by value; in every case finish by forwarding
the stop envelope to `next`. -/
def handleStopped (c : ReceiverContext) (envelope : MessageEnvelope) : List Effect :=
  (match GetClusterIdentity c with
   | some identity =>
       [Effect.publishActivationTerminating c.selfPid identity,
        Effect.removeByValue identity.Identity identity.Kind c.selfPid]
   | none => []) ++ [Effect.next envelope]

/-- `handleStarted`: forward the start envelope to `next` first, then build
`ClusterInit{Identity, Cluster}` from the context (no nil check on the
identity) and forward it, wrapped, through the same `next`. -/
def handleStarted (c : ReceiverContext) (envelope : MessageEnvelope) : List Effect :=
  [Effect.next envelope,
   Effect.next (WrapEnvelope (Message.clusterInit (GetClusterIdentity c) (GetCluster c)))]

/-- The receiver middleware of `withClusterReceiveMiddleware`: a type switch
on the envelope's message — `*actor.Started` goes to `handleStarted`,
`*actor.Stopped` to `handleStopped`, everything else straight to `next`
with the envelope untouched. -/
def clusterReceiveMiddleware (c : ReceiverContext) (envelope : MessageEnvelope) : List Effect :=
  match envelope.Message with
  | Message.started => handleStarted c envelope
  | Message.stopped => handleStopped c envelope
  | _ => [Effect.next envelope]

/-! ## Claims C2, C3, C5, C6, C10 -/

/-- Claim C2: on a start signal the middleware first forwards the start
envelope to the wrapped pipeline, and only then constructs the
`ClusterInit` message carrying the bound identity and the cluster reference
and delivers it through the same pipeline; the observed effect trace is
exactly `[start signal, ClusterInit]`, with the `ClusterInit` forward
occurring exactly once and nothing interleaved between the two. -/
theorem handleStarted_start_then_clusterInit (c : ReceiverContext)
    (envelope : MessageEnvelope) (ci : ClusterIdentity)
    (hmsg : envelope.Message = Message.started)
    (hid : GetClusterIdentity c = some ci) :
    clusterReceiveMiddleware c envelope =
      [Effect.next envelope,
       Effect.next (WrapEnvelope (Message.clusterInit (some ci) (GetCluster c)))] ∧
    (clusterReceiveMiddleware c envelope).countP (fun e => e.isClusterInitNext) = 1 := by
  obtain ⟨h, m, s⟩ := envelope
  simp only [MessageEnvelope.Message] at hmsg
  subst hmsg
  constructor
  · simp [clusterReceiveMiddleware, handleStarted, hid]
  · simp [clusterReceiveMiddleware, handleStarted, hid, Effect.isClusterInitNext,
      WrapEnvelope, List.countP, List.countP.go]

/-- Witness for C2 at a concrete input: identity `("user-1", "Hello")` bound,
pid 7, cluster reference 42. -/
theorem handleStarted_start_then_clusterInit_witness :
    clusterReceiveMiddleware ⟨7, 42, some ⟨"user-1", "Hello"⟩⟩ ⟨none, Message.started, none⟩ =
      [Effect.next ⟨none, Message.started, none⟩,
       Effect.next (WrapEnvelope (Message.clusterInit (some ⟨"user-1", "Hello"⟩) 42))] ∧
    (clusterReceiveMiddleware ⟨7, 42, some ⟨"user-1", "Hello"⟩⟩
        ⟨none, Message.started, none⟩).countP (fun e => e.isClusterInitNext) = 1 :=
  handleStarted_start_then_clusterInit ⟨7, 42, some ⟨"user-1", "Hello"⟩⟩
    ⟨none, Message.started, none⟩ ⟨"user-1", "Hello"⟩ rfl rfl

/-- Claim C3: on a stop signal with an identity bound, the effect trace is
exactly: publish `ActivationTerminating{self, identity}`, then the
value-qualified cache removal keyed by (identity, kind, self), then the
forward of the stop envelope to the wrapped pipeline — in that order. -/
theorem handleStopped_publish_remove_forward (c : ReceiverContext)
    (envelope : MessageEnvelope) (ci : ClusterIdentity)
    (hmsg : envelope.Message = Message.stopped)
    (hid : GetClusterIdentity c = some ci) :
    clusterReceiveMiddleware c envelope =
      [Effect.publishActivationTerminating c.selfPid ci,
       Effect.removeByValue ci.Identity ci.Kind c.selfPid,
       Effect.next envelope] := by
  obtain ⟨h, m, s⟩ := envelope
  simp only [MessageEnvelope.Message] at hmsg
  subst hmsg
  simp [clusterReceiveMiddleware, handleStopped, hid]

/-- Witness for C3 at a concrete input: identity `("user-1", "Hello")` bound,
pid 7. -/
theorem handleStopped_publish_remove_forward_witness :
    clusterReceiveMiddleware ⟨7, 42, some ⟨"user-1", "Hello"⟩⟩ ⟨none, Message.stopped, none⟩ =
      [Effect.publishActivationTerminating 7 ⟨"user-1", "Hello"⟩,
       Effect.removeByValue "user-1" "Hello" 7,
       Effect.next ⟨none, Message.stopped, none⟩] :=
  handleStopped_publish_remove_forward ⟨7, 42, some ⟨"user-1", "Hello"⟩⟩
    ⟨none, Message.stopped, none⟩ ⟨"user-1", "Hello"⟩ rfl rfl

/-- Claim C5: on a stop signal with no identity bound, the middleware
publishes no event and removes nothing from the identity cache — its whole
effect trace is the single forward of the stop envelope to the wrapped
pipeline; the missing identity is not an error. -/
theorem handleStopped_missing_identity (c : ReceiverContext)
    (envelope : MessageEnvelope)
    (hmsg : envelope.Message = Message.stopped)
    (hid : GetClusterIdentity c = none) :
    clusterReceiveMiddleware c envelope = [Effect.next envelope] ∧
    ∀ e ∈ clusterReceiveMiddleware c envelope, e = Effect.next envelope := by
  obtain ⟨h, m, s⟩ := envelope
  simp only [MessageEnvelope.Message] at hmsg
  subst hmsg
  refine ⟨?_, ?_⟩
  · simp [clusterReceiveMiddleware, handleStopped, hid]
  · intro e he
    simpa [clusterReceiveMiddleware, handleStopped, hid] using he

/-- Witness for C5 at a concrete input: no identity bound, pid 7. -/
theorem handleStopped_missing_identity_witness :
    clusterReceiveMiddleware ⟨7, 42, none⟩ ⟨none, Message.stopped, none⟩ =
      [Effect.next ⟨none, Message.stopped, none⟩] ∧
    ∀ e ∈ clusterReceiveMiddleware ⟨7, 42, none⟩ ⟨none, Message.stopped, none⟩,
      e = Effect.next ⟨none, Message.stopped, none⟩ :=
  handleStopped_missing_identity ⟨7, 42, none⟩ ⟨none, Message.stopped, none⟩ rfl rfl

/-- Claim C6: the middleware intercepts exactly the start and stop signals;
for every other message it invokes `next` with the envelope unmodified and
performs no other effect. -/
theorem middleware_passthrough (c : ReceiverContext) (envelope : MessageEnvelope)
    (h1 : envelope.Message ≠ Message.started)
    (h2 : envelope.Message ≠ Message.stopped) :
    clusterReceiveMiddleware c envelope = [Effect.next envelope] := by
  obtain ⟨h, m, s⟩ := envelope
  simp only [MessageEnvelope.Message] at h1 h2
  cases m with
  | started => exact absurd rfl h1
  | stopped => exact absurd rfl h2
  | clusterInit identity cluster => rfl
  | other tag => rfl

/-- Witness for C6 at a concrete input: an arbitrary business message (tag 3,
with a header and a sender) passes through untouched. -/
theorem middleware_passthrough_witness :
    clusterReceiveMiddleware ⟨7, 42, some ⟨"user-1", "Hello"⟩⟩
        ⟨some [("k", "v")], Message.other 3, some 9⟩ =
      [Effect.next ⟨some [("k", "v")], Message.other 3, some 9⟩] :=
  middleware_passthrough ⟨7, 42, some ⟨"user-1", "Hello"⟩⟩
    ⟨some [("k", "v")], Message.other 3, some 9⟩ (by simp) (by simp)

/-- Claim C10: start handling performs no missing-identity check — with no
identity bound, the `ClusterInit` message is still constructed and
delivered through the pipeline, carrying an absent (nil) identity. -/
theorem handleStarted_no_identity_check (c : ReceiverContext)
    (envelope : MessageEnvelope)
    (hmsg : envelope.Message = Message.started)
    (hid : GetClusterIdentity c = none) :
    clusterReceiveMiddleware c envelope =
      [Effect.next envelope,
       Effect.next (WrapEnvelope (Message.clusterInit none (GetCluster c)))] := by
  obtain ⟨h, m, s⟩ := envelope
  simp only [MessageEnvelope.Message] at hmsg
  subst hmsg
  simp [clusterReceiveMiddleware, handleStarted, hid]

/-- Witness for C10 at a concrete input: no identity bound; `ClusterInit`
with nil identity is still delivered after the start signal. -/
theorem handleStarted_no_identity_check_witness :
    clusterReceiveMiddleware ⟨7, 42, none⟩ ⟨none, Message.started, none⟩ =
      [Effect.next ⟨none, Message.started, none⟩,
       Effect.next (WrapEnvelope (Message.clusterInit none 42))] :=
  handleStarted_no_identity_check ⟨7, 42, none⟩ ⟨none, Message.started, none⟩ rfl rfl

/-! ## ActivatedKind and its live-instance counter -/

/-- A member strategy is opaque to this core: stored and forwarded, never
inspected. -/
abbrev MemberStrategy := Nat

/-- Two's-complement wrap into signed 32-bit range: the arithmetic of Go
`atomic.AddInt32` on the `int32` field `count`. -/
def i32wrap (x : Int) : Int := (x + 2 ^ 31) % 2 ^ 32 - 2 ^ 31

/-- `cluster.ActivatedKind`: kind name, props, resolved strategy and the
`int32` live-instance counter `count`. -/
structure ActivatedKind where
  Kind : String
  Props : Props
  Strategy : Option MemberStrategy
  count : Int
deriving DecidableEq

/-- `Kind.Build`: resolves the strategy builder against the live cluster when
one is configured (the builder call yields an opaque strategy, represented
by the builder's reference) and returns an `ActivatedKind`; the `count`
field is not set in the Go struct literal, so it starts at the `int32` zero
value. -/
def Kind.Build (k : ProtoCluster.Kind) (cluster : ClusterRef) : ActivatedKind :=
  { Kind := k.Kind
    Props := k.Props
    Strategy := match k.StrategyBuilder with
                | some builder => some builder
                | none => none
    count := 0 }

/-- `ActivatedKind.Inc`: `atomic.AddInt32(&ak.count, 1)`. -/
def ActivatedKind.Inc (ak : ActivatedKind) : ActivatedKind :=
  { ak with count := i32wrap (ak.count + 1) }

/-- `ActivatedKind.Dev`: `atomic.AddInt32(&ak.count, -1)` — an unconditional
atomic decrement, with no guard against going below zero. -/
def ActivatedKind.Dev (ak : ActivatedKind) : ActivatedKind :=
  { ak with count := i32wrap (ak.count + -1) }

/-- The observable call sequence against one `ActivatedKind`: since both
operations are single atomic adds, any concurrent interleaving is some
total order of the individual calls, i.e. a list of operations. -/
inductive CounterOp where
  | inc
  | dev
deriving DecidableEq

/-- Apply one counter operation. -/
def applyOp (ak : ActivatedKind) : CounterOp → ActivatedKind
  | CounterOp.inc => ak.Inc
  | CounterOp.dev => ak.Dev

/-- Run a sequence of counter operations left to right. -/
def runOps (ak : ActivatedKind) : List CounterOp → ActivatedKind
  | [] => ak
  | op :: rest => runOps (applyOp ak op) rest

/-- Number of `Inc` calls in a sequence. -/
def numInc : List CounterOp → Nat
  | [] => 0
  | CounterOp.inc :: rest => numInc rest + 1
  | CounterOp.dev :: rest => numInc rest

/-- Number of `Dev` calls in a sequence. -/
def numDev : List CounterOp → Nat
  | [] => 0
  | CounterOp.inc :: rest => numDev rest
  | CounterOp.dev :: rest => numDev rest + 1

/-! ## Claim C1 -/

theorem i32wrap_eq_self (x : Int) (h0 : -(2 ^ 31) ≤ x) (h1 : x < 2 ^ 31) :
    i32wrap x = x := by
  unfold i32wrap
  have h2 : (0 : Int) ≤ x + 2 ^ 31 := by linarith
  have h3 : x + 2 ^ 31 < 2 ^ 32 := by
    have : (2 : Int) ^ 32 = 2 ^ 31 + 2 ^ 31 := by norm_num
    linarith
  rw [Int.emod_eq_of_lt h2 h3]
  ring

theorem runOps_count_general (ops : List CounterOp) (ak : ActivatedKind)
    (h : ∀ n, 0 ≤ ak.count + numInc (ops.take n) - numDev (ops.take n) ∧
              ak.count + numInc (ops.take n) - numDev (ops.take n) < 2 ^ 31) :
    (runOps ak ops).count = ak.count + numInc ops - numDev ops := by
  induction ops generalizing ak with
  | nil => simp [runOps, numInc, numDev]
  | cons op rest ih =>
    have h0 := (h 0).1
    simp only [List.take, numInc, numDev] at h0
    have h1 := h 1
    cases op with
    | inc =>
      have hstep : (applyOp ak CounterOp.inc).count = ak.count + 1 := by
        simp only [List.take, numInc, numDev] at h1
        have hlow : -(2 ^ 31 : Int) ≤ ak.count + 1 := by
          have : (0 : Int) ≤ ak.count := by omega
          omega
        have hhigh : ak.count + 1 < 2 ^ 31 := by omega
        simp only [applyOp, ActivatedKind.Inc]
        exact i32wrap_eq_self _ hlow hhigh
      have hrec := ih (applyOp ak CounterOp.inc) (by
        intro n
        have hn := h (n + 1)
        simp only [List.take, numInc, numDev] at hn
        rw [hstep]
        constructor <;> omega)
      simp only [runOps, hrec, hstep, numInc, numDev]
      omega
    | dev =>
      have hstep : (applyOp ak CounterOp.dev).count = ak.count - 1 := by
        simp only [List.take, numInc, numDev] at h1
        have hlow : -(2 ^ 31 : Int) ≤ ak.count + -1 := by omega
        have hhigh : ak.count + -1 < 2 ^ 31 := by omega
        simp only [applyOp, ActivatedKind.Dev]
        rw [i32wrap_eq_self _ hlow hhigh]
        ring
      have hrec := ih (applyOp ak CounterOp.dev) (by
        intro n
        have hn := h (n + 1)
        simp only [List.take, numInc, numDev] at hn
        rw [hstep]
        constructor <;> omega)
      simp only [runOps, hrec, hstep, numInc, numDev]
      omega

theorem numInc_take_le (ops : List CounterOp) (n : Nat) :
    numInc (ops.take n) ≤ numInc ops := by
  induction ops generalizing n with
  | nil => simp [List.take, numInc]
  | cons op rest ih =>
    cases n with
    | zero => simp [List.take, numInc]
    | succ m =>
      cases op with
      | inc =>
        simp only [List.take_succ_cons, numInc]
        have := ih m
        omega
      | dev =>
        simp only [List.take_succ_cons, numInc]
        have := ih m
        omega

/-- Counterexample to claim C1 as stated: on the one-call sequence `[Dev]`
the counter equals `-1`, which is negative — `Dev` is an unconditional
decrement with no non-negativity guard. -/
theorem liveCount_negative_after_single_dev :
    (runOps (Kind.Build ⟨"Hello", 0, none⟩ 0) [CounterOp.dev]).count = -1 ∧
    ¬ 0 ≤ (runOps (Kind.Build ⟨"Hello", 0, none⟩ 0) [CounterOp.dev]).count := by
  constructor <;> decide

/-- Claim C1 (amended): for every sequence of `Inc`/`Dev` calls on a single
`ActivatedKind` in which every observation point has seen at least as many
`Inc` as `Dev` calls and the total number of `Inc` calls stays below
`2 ^ 31`, the `count` field equals (#Inc − #Dev) at the end and is
non-negative (and, since every intermediate point is the end of a
conforming shorter sequence, at every observation point); without the
proviso the counter goes negative, as the counterexample shows. -/
theorem liveCount_eq_net_delta (k : Kind) (cluster : ClusterRef)
    (ops : List CounterOp)
    (hbal : ∀ n, numDev (ops.take n) ≤ numInc (ops.take n))
    (hbound : numInc ops < 2 ^ 31) :
    (runOps (Kind.Build k cluster) ops).count = (numInc ops : Int) - numDev ops ∧
    0 ≤ (runOps (Kind.Build k cluster) ops).count := by
  have hcount : (Kind.Build k cluster).count = 0 := rfl
  have hmain : (runOps (Kind.Build k cluster) ops).count
      = (Kind.Build k cluster).count + numInc ops - numDev ops := by
    apply runOps_count_general
    intro n
    rw [hcount]
    have hb := hbal n
    have ht : numInc (ops.take n) ≤ numInc ops := numInc_take_le ops n
    constructor <;> omega
  have hlast := hbal ops.length
  rw [List.take_length] at hlast
  rw [hmain, hcount]
  constructor <;> omega

/-- Witness for C1 at a concrete input: the sequence `[Inc, Inc, Dev]` is
balanced at every point and yields `count = 2 - 1 = 1 ≥ 0`. -/
theorem liveCount_eq_net_delta_witness :
    (runOps (Kind.Build ⟨"Hello", 0, none⟩ 0)
        [CounterOp.inc, CounterOp.inc, CounterOp.dev]).count
      = (numInc [CounterOp.inc, CounterOp.inc, CounterOp.dev] : Int)
        - numDev [CounterOp.inc, CounterOp.inc, CounterOp.dev] ∧
    0 ≤ (runOps (Kind.Build ⟨"Hello", 0, none⟩ 0)
        [CounterOp.inc, CounterOp.inc, CounterOp.dev]).count :=
  liveCount_eq_net_delta ⟨"Hello", 0, none⟩ 0
    [CounterOp.inc, CounterOp.inc, CounterOp.dev]
    (by
      intro n
      match n with
      | 0 => decide
      | 1 => decide
      | 2 => decide
      | (m + 3) => simp [List.take, numInc, numDev])
    (by decide)

/-! ## Grain stub generator (`protoc-gen-go-grain/generate.go`) -/

/-- The grain `options.MethodOptions` extension on an RPC method: the one
recognized annotation, `reenterable`.  `none` models an absent annotation.
In the Go code `proto.GetExtension(method.Desc.Options(),
options.E_MethodOptions)` returns a typed `*options.MethodOptions` (a nil
pointer when the annotation is absent) for this registered message-typed
extension, so the type assertion succeeds and `GetReenterable()` on the nil
pointer returns the proto3 default `false`. -/
structure MethodOptions where
  Reenterable : Option Bool
deriving DecidableEq

/-- `GetReenterable`: the annotation's value, `false` when absent. -/
def MethodOptions.GetReenterable (o : MethodOptions) : Bool :=
  o.Reenterable.getD false

/-- One RPC method of a service definition, with the descriptor facts
`generateService` reads: Go name, input/output message types, the two
streaming flags, and the grain method options extension. -/
structure Method where
  GoName : String
  InputType : String
  OutputType : String
  isStreamingClient : Bool
  isStreamingServer : Bool
  methodOptions : MethodOptions
deriving DecidableEq

/-- `methodDesc`: the dispatch descriptor emitted per generated method. -/
structure methodDesc where
  Name : String
  Input : String
  Output : String
  Index : Nat
  Reenterable : Bool
deriving DecidableEq

/-- A service definition: an ordered list of RPC method declarations. -/
structure Service where
  GoName : String
  Methods : List Method
deriving DecidableEq

/-- The descriptor `generateService` builds for the method at position `i`. -/
def mkMethodDesc (i : Nat) (method : Method) : methodDesc :=
  { Name := method.GoName
    Input := method.InputType
    Output := method.OutputType
    Index := i
    Reenterable := method.methodOptions.GetReenterable }

/-- The `for i, method := range service.Methods` loop of `generateService`,
with the running ordinal made explicit: a method that is streaming on
either side is skipped (`continue`), every other method contributes one
`methodDesc` carrying its ordinal `i` and its `GetReenterable()` flag. -/
def generateMethods : Nat → List Method → List methodDesc
  | _, [] => []
  | i, method :: rest =>
    if method.isStreamingClient || method.isStreamingServer then
      generateMethods (i + 1) rest
    else
      mkMethodDesc i method :: generateMethods (i + 1) rest

/-- `generateService`: the dispatch descriptors collected into
`sd.Methods`, in declaration order (the final `if len(sd.Methods) != 0`
only guards the text emission, not the descriptor list). -/
def generateService (service : Service) : List methodDesc :=
  generateMethods 0 service.Methods

/-! ## Claim C7 -/

theorem generateMethods_index_ge (ms : List Method) :
    ∀ n, ∀ d ∈ generateMethods n ms, n ≤ d.Index := by
  induction ms with
  | nil =>
    intro n d hd
    simp [generateMethods] at hd
  | cons method rest ih =>
    intro n d hd
    simp only [generateMethods] at hd
    by_cases hs : (method.isStreamingClient || method.isStreamingServer) = true
    · rw [if_pos hs] at hd
      exact Nat.le_of_succ_le (ih (n + 1) d hd)
    · rw [if_neg hs] at hd
      rcases List.mem_cons.mp hd with h | h
      · subst h
        exact Nat.le_refl n
      · exact Nat.le_of_succ_le (ih (n + 1) d h)

theorem generateMethods_index_lt (ms : List Method) :
    ∀ n, ∀ d ∈ generateMethods n ms, d.Index < n + ms.length := by
  induction ms with
  | nil =>
    intro n d hd
    simp [generateMethods] at hd
  | cons method rest ih =>
    intro n d hd
    simp only [generateMethods] at hd
    by_cases hs : (method.isStreamingClient || method.isStreamingServer) = true
    · rw [if_pos hs] at hd
      have := ih (n + 1) d hd
      simp only [List.length_cons]
      omega
    · rw [if_neg hs] at hd
      rcases List.mem_cons.mp hd with h | h
      · subst h
        simp only [mkMethodDesc, List.length_cons]
        omega
      · have := ih (n + 1) d h
        simp only [List.length_cons]
        omega

theorem generateMethods_spec (ms : List Method) :
    ∀ n i (h : i < ms.length),
      (((ms.get ⟨i, h⟩).isStreamingClient || (ms.get ⟨i, h⟩).isStreamingServer) = true →
        ∀ d ∈ generateMethods n ms, d.Index ≠ n + i) ∧
      (((ms.get ⟨i, h⟩).isStreamingClient || (ms.get ⟨i, h⟩).isStreamingServer) = false →
        mkMethodDesc (n + i) (ms.get ⟨i, h⟩) ∈ generateMethods n ms ∧
        ∀ d ∈ generateMethods n ms, d.Index = n + i →
          d = mkMethodDesc (n + i) (ms.get ⟨i, h⟩)) := by
  induction ms with
  | nil =>
    intro n i h
    exact absurd h (by simp)
  | cons method rest ih =>
    intro n i h
    cases i with
    | zero =>
      have hget0 : (method :: rest).get ⟨0, h⟩ = method := rfl
      rw [hget0, Nat.add_zero]
      constructor
      · intro hs d hd
        simp only [generateMethods, if_pos hs] at hd
        have := generateMethods_index_ge rest (n + 1) d hd
        omega
      · intro hs
        have hsne : ¬ ((method.isStreamingClient || method.isStreamingServer) = true) := by
          rw [hs]
          simp
        simp only [generateMethods, if_neg hsne]
        constructor
        · exact List.mem_cons_self _ _
        · intro d hd hidx
          rcases List.mem_cons.mp hd with hcase | hcase
          · exact hcase
          · have := generateMethods_index_ge rest (n + 1) d hcase
            omega
    | succ j =>
      have hj : j < rest.length := Nat.lt_of_succ_lt_succ h
      have hrec := ih (n + 1) j hj
      have hget : (method :: rest).get ⟨j + 1, h⟩ = rest.get ⟨j, hj⟩ := rfl
      have hadd : n + (j + 1) = (n + 1) + j := by omega
      rw [hget, hadd]
      constructor
      · intro hs d hd
        simp only [generateMethods] at hd
        by_cases hstream : (method.isStreamingClient || method.isStreamingServer) = true
        · rw [if_pos hstream] at hd
          exact hrec.1 hs d hd
        · rw [if_neg hstream] at hd
          rcases List.mem_cons.mp hd with hcase | hcase
          · subst hcase
            simp only [mkMethodDesc]
            omega
          · exact hrec.1 hs d hcase
      · intro hs
        have hmem := (hrec.2 hs).1
        have huniq := (hrec.2 hs).2
        simp only [generateMethods]
        by_cases hstream : (method.isStreamingClient || method.isStreamingServer) = true
        · rw [if_pos hstream]
          exact ⟨hmem, huniq⟩
        · rw [if_neg hstream]
          constructor
          · exact List.mem_cons_of_mem _ hmem
          · intro d hd hidx
            rcases List.mem_cons.mp hd with hcase | hcase
            · subst hcase
              simp only [mkMethodDesc] at hidx
              omega
            · exact huniq d hcase hidx

/-- Claim C7: for every service definition, the generator emits a dispatch
descriptor for a method if and only if the method is non-streaming (no
descriptor carries a streaming method's ordinal; exactly one descriptor
carries each non-streaming method's ordinal), every descriptor's `Index`
lies in the range of declared method positions, and the descriptor of the
method at position `i` carries `Index = i`, the method's name and types,
and `Reenterable` equal to the method's `reenterable` annotation with
default `false` when the annotation is absent. -/
theorem generateService_dispatch_descriptors (service : Service) (i : Nat)
    (h : i < service.Methods.length) :
    (∀ d ∈ generateService service, d.Index < service.Methods.length) ∧
    (((service.Methods.get ⟨i, h⟩).isStreamingClient
        || (service.Methods.get ⟨i, h⟩).isStreamingServer) = true →
      ∀ d ∈ generateService service, d.Index ≠ i) ∧
    (((service.Methods.get ⟨i, h⟩).isStreamingClient
        || (service.Methods.get ⟨i, h⟩).isStreamingServer) = false →
      mkMethodDesc i (service.Methods.get ⟨i, h⟩) ∈ generateService service ∧
      (∀ d ∈ generateService service, d.Index = i →
        d = mkMethodDesc i (service.Methods.get ⟨i, h⟩)) ∧
      (mkMethodDesc i (service.Methods.get ⟨i, h⟩)).Reenterable
        = (service.Methods.get ⟨i, h⟩).methodOptions.Reenterable.getD false) := by
  have hspec := generateMethods_spec service.Methods 0 i h
  rw [Nat.zero_add] at hspec
  refine ⟨?_, hspec.1, fun hs => ⟨(hspec.2 hs).1, (hspec.2 hs).2, rfl⟩⟩
  intro d hd
  have := generateMethods_index_lt service.Methods 0 d hd
  omega

/-- The `Hello` service of the reentrancy example: `InvokeService` annotated
`reenterable = true`, `DoWork` with no annotation, plus a streaming method
to exercise the skip path. -/
def sampleService : Service :=
  { GoName := "Hello"
    Methods :=
      [⟨"InvokeService", "InvokeServiceRequest", "InvokeServiceResponse", false, false, ⟨some true⟩⟩,
       ⟨"DoWork", "DoWorkRequest", "DoWorkResponse", false, false, ⟨none⟩⟩,
       ⟨"Watch", "WatchRequest", "WatchResponse", false, true, ⟨none⟩⟩] }

/-- Witness for C7 at a concrete input: position 1 (`DoWork`, non-streaming,
no annotation) of the sample service. -/
theorem generateService_dispatch_descriptors_witness :
    (∀ d ∈ generateService sampleService, d.Index < sampleService.Methods.length) ∧
    (((sampleService.Methods.get ⟨1, by decide⟩).isStreamingClient
        || (sampleService.Methods.get ⟨1, by decide⟩).isStreamingServer) = true →
      ∀ d ∈ generateService sampleService, d.Index ≠ 1) ∧
    (((sampleService.Methods.get ⟨1, by decide⟩).isStreamingClient
        || (sampleService.Methods.get ⟨1, by decide⟩).isStreamingServer) = false →
      mkMethodDesc 1 (sampleService.Methods.get ⟨1, by decide⟩) ∈ generateService sampleService ∧
      (∀ d ∈ generateService sampleService, d.Index = 1 →
        d = mkMethodDesc 1 (sampleService.Methods.get ⟨1, by decide⟩)) ∧
      (mkMethodDesc 1 (sampleService.Methods.get ⟨1, by decide⟩)).Reenterable
        = (sampleService.Methods.get ⟨1, by decide⟩).methodOptions.Reenterable.getD false) :=
  generateService_dispatch_descriptors sampleService 1 (by decide)

/-! ## Reentrant vs blocking call semantics (modelled from the spec)

The generated call bodies invoked by the stubs are not among the sources at
hand — only the service definition (`service Hello` with reenterable
`InvokeService` and blocking `DoWork`) is.  The dispatch semantics below is
therefore modelled from the specification: each activation processes
messages one at a time on its own serial turn; a blocking call occupies the
caller's turn for the full round trip, so the grain consumes nothing until
the response to that very call arrives; a reentrant call registers the
eventual response as a continuation re-injected into the grain's own
message queue and releases the turn immediately.  The cyclic scenario of
the claim keeps exactly one message in flight at every point, so every
scheduler performs the same steps and a deterministic executor loses no
interleavings. -/

/-- The two grains of the scenario. -/
inductive GrainId where
  | A
  | B
deriving DecidableEq

/-- The peer of a grain in the two-grain cycle. -/
def GrainId.peer : GrainId → GrainId
  | GrainId.A => GrainId.B
  | GrainId.B => GrainId.A

/-- Whether the exercised method is the blocking `DoWork` or the reenterable
`InvokeService`. -/
inductive CallKind where
  | blocking
  | reentrant
deriving DecidableEq

/-- Where a response is to be sent: the external client or a grain. -/
inductive Dest where
  | client
  | grain (g : GrainId)
deriving DecidableEq

/-- An in-flight message: an identity-addressed request (with the call depth
of the scenario's handler script) or a response to a request id. -/
inductive CallMsg where
  | request (reqId : Nat) (replyTo : Dest) (depth : Nat)
  | response (reqId : Nat)
deriving DecidableEq

/-- One activation's dispatch state: `blockedOn = some (awaited, orig,
origDest)` while a blocking call is outstanding (the turn is held, and the
original request `orig` is answered to `origDest` on resume); `conts` holds
the continuations of outstanding reentrant calls (turn free). -/
structure GrainState where
  blockedOn : Option (Nat × Nat × Dest)
  conts : List (Nat × Nat × Dest)
deriving DecidableEq

/-- Global state: both grains, the in-flight messages, the log of responses
each grain has received for its own outstanding calls, the responses the
external client has received, and the request-id counter. -/
structure SysState where
  a : GrainState
  b : GrainState
  pending : List (GrainId × CallMsg)
  delivered : List (GrainId × Nat)
  clientResponses : List Nat
  nextReq : Nat
deriving DecidableEq

/-- The state of one grain. -/
def SysState.grainState (st : SysState) : GrainId → GrainState
  | GrainId.A => st.a
  | GrainId.B => st.b

/-- Replace the state of one grain. -/
def SysState.setGrain (st : SysState) (g : GrainId) (gs : GrainState) : SysState :=
  match g with
  | GrainId.A => { st with a := gs }
  | GrainId.B => { st with b := gs }

/-- Look up the continuation registered for request id `r`. -/
def contLookup (conts : List (Nat × Nat × Dest)) (r : Nat) : Option (Nat × Dest) :=
  match conts with
  | [] => none
  | (req, orig, dest) :: rest => if req = r then some (orig, dest) else contLookup rest r

/-- Remove the continuation registered for request id `r`. -/
def contRemove (conts : List (Nat × Nat × Dest)) (r : Nat) : List (Nat × Nat × Dest) :=
  match conts with
  | [] => []
  | (req, orig, dest) :: rest =>
      if req = r then rest else (req, orig, dest) :: contRemove rest r

/-- Whether a grain can consume a message now: a request only on a free
turn; a response either resumes the blocking call awaiting exactly it, or
fires a registered reentrant continuation on a free turn. -/
def consumable (st : SysState) : GrainId × CallMsg → Bool
  | (g, CallMsg.request _ _ _) => (st.grainState g).blockedOn.isNone
  | (g, CallMsg.response r) =>
      match (st.grainState g).blockedOn with
      | some (awaited, _, _) => awaited == r
      | none => (contLookup (st.grainState g).conts r).isSome

/-- Send a response for request `reqId` to `dest`. -/
def deliverResponse (st : SysState) (dest : Dest) (reqId : Nat) : SysState :=
  match dest with
  | Dest.client => { st with clientResponses := st.clientResponses ++ [reqId] }
  | Dest.grain g => { st with pending := st.pending ++ [(g, CallMsg.response reqId)] }

/-- Modelled from the spec: one turn of grain `g` consuming a message.  The
handler script of the claim's cyclic scenario: a request at depth 0 is
answered immediately; a request at positive depth calls the peer grain
(depth − 1) and answers its own caller once that inner call responds —
holding the turn (`blockedOn`) for a blocking method, registering a
continuation and releasing the turn for a reenterable one.  A consumed
response (blocking resume or continuation firing) is logged in `delivered`
and triggers the deferred answer. -/
def processMsg (k : CallKind) (st : SysState) (g : GrainId) : CallMsg → SysState
  | CallMsg.request reqId replyTo depth =>
      match depth with
      | 0 => deliverResponse st replyTo reqId
      | d + 1 =>
          let newReq := st.nextReq
          let st1 := { st with
            nextReq := st.nextReq + 1
            pending := st.pending ++ [(g.peer, CallMsg.request newReq (Dest.grain g) d)] }
          match k with
          | CallKind.blocking =>
              st1.setGrain g { st1.grainState g with blockedOn := some (newReq, reqId, replyTo) }
          | CallKind.reentrant =>
              st1.setGrain g
                { st1.grainState g with
                  conts := (st1.grainState g).conts ++ [(newReq, reqId, replyTo)] }
  | CallMsg.response r =>
      match (st.grainState g).blockedOn with
      | some (_, origReq, origDest) =>
          let st1 := st.setGrain g { st.grainState g with blockedOn := none }
          let st2 := { st1 with delivered := st1.delivered ++ [(g, r)] }
          deliverResponse st2 origDest origReq
      | none =>
          match contLookup (st.grainState g).conts r with
          | some (origReq, origDest) =>
              let st1 := st.setGrain g
                { st.grainState g with conts := contRemove (st.grainState g).conts r }
              let st2 := { st1 with delivered := st1.delivered ++ [(g, r)] }
              deliverResponse st2 origDest origReq
          | none => st

/-- One scheduling step: consume the first consumable in-flight message, or
report that none exists (`none` = the system is stuck). -/
def step (k : CallKind) (st : SysState) : Option SysState :=
  match st.pending.find? (consumable st) with
  | none => none
  | some (g, m) =>
      some (processMsg k { st with pending := st.pending.erase (g, m) } g m)

/-- Run up to `n` scheduling steps. -/
def exec (k : CallKind) : Nat → SysState → SysState
  | 0, st => st
  | n + 1, st =>
      match step k st with
      | none => st
      | some st' => exec k n st'

/-- The claim's scenario: the external client invokes the method on grain A
at depth 2, so A's handler calls the same method on B, whose handler calls
back the same method on A, whose handler (depth 0) answers immediately. -/
def initState : SysState :=
  { a := ⟨none, []⟩
    b := ⟨none, []⟩
    pending := [(GrainId.A, CallMsg.request 0 Dest.client 2)]
    delivered := []
    clientResponses := []
    nextReq := 1 }

/-- Modelled from the spec: a call that never receives its response within
the configured timeout fails with `RequestTimeout` on the caller's side;
with no real-time clock in the model, a call by grain `g` with request id
`r` times out when no amount of scheduling ever delivers its response. -/
def RequestTimeoutOutcome (k : CallKind) (g : GrainId) (r : Nat) : Prop :=
  ∀ n, (g, r) ∉ (exec k n initState).delivered

/-! ## Claim C4 -/

theorem exec_stuck (k : CallKind) (st : SysState) (h : step k st = none) :
    ∀ n, exec k n st = st := by
  intro n
  cases n with
  | zero => rfl
  | succ m => simp [exec, h]

theorem exec_add (k : CallKind) (m n : Nat) (st : SysState) :
    exec k (n + m) st = exec k n (exec k m st) := by
  induction m generalizing st with
  | zero => rfl
  | succ p ih =>
    show exec k ((n + p) + 1) st = exec k n (exec k (p + 1) st)
    cases hstep : step k st with
    | none =>
      simp only [exec, hstep]
      exact (exec_stuck k st hstep n).symm
    | some st' =>
      simp only [exec, hstep]
      exact ih st'

theorem step_blocking_stuck :
    step CallKind.blocking (exec CallKind.blocking 2 initState) = none := by
  decide

theorem exec_blocking_cases (n : Nat) :
    exec CallKind.blocking n initState = initState ∨
    exec CallKind.blocking n initState = exec CallKind.blocking 1 initState ∨
    exec CallKind.blocking n initState = exec CallKind.blocking 2 initState := by
  match n with
  | 0 => exact Or.inl rfl
  | 1 => exact Or.inr (Or.inl rfl)
  | (m + 2) =>
    refine Or.inr (Or.inr ?_)
    have h := exec_add CallKind.blocking 2 m initState
    rw [h, exec_stuck CallKind.blocking _ step_blocking_stuck m]

/-- Claim C4: in the cyclic scenario, the reentrant method resolves on both
sides — A's call (request 1) and B's callback (request 2) both receive
their responses and the client gets its answer — while the blocking method
never produces a response under any amount of scheduling: the client never
receives an answer and neither side's call is ever resolved, so both calls
fail with `RequestTimeout` once the configured timeout elapses. -/
theorem reentrant_resolves_blocking_times_out :
    ((GrainId.A, 1) ∈ (exec CallKind.reentrant 5 initState).delivered ∧
     (GrainId.B, 2) ∈ (exec CallKind.reentrant 5 initState).delivered ∧
     (exec CallKind.reentrant 5 initState).clientResponses = [0]) ∧
    (RequestTimeoutOutcome CallKind.blocking GrainId.A 1 ∧
     RequestTimeoutOutcome CallKind.blocking GrainId.B 2 ∧
     ∀ n, (exec CallKind.blocking n initState).clientResponses = []) := by
  refine ⟨⟨by decide, by decide, by decide⟩, ?_, ?_, ?_⟩
  · intro n hmem
    rcases exec_blocking_cases n with h | h | h <;> rw [h] at hmem <;> revert hmem <;> decide
  · intro n hmem
    rcases exec_blocking_cases n with h | h | h <;> rw [h] at hmem <;> revert hmem <;> decide
  · intro n
    rcases exec_blocking_cases n with h | h | h <;> rw [h] <;> decide

end ProtoCluster
